import Mathlib

/-!
# Ticket enrichment of the Naksir Autonomous frontend

A shallow embedding of `src/frontend/hooks/useTickets.ts`: the data model of
the predictions feed (`tickets.json`) and the evaluation feed
(`evaluation.json`), the evaluation lookup maps, the `enrichTicket` merge
function, the per-set enrichment, and the `load` pipeline's success/failure
state.  JavaScript `Map` objects built by repeated `set` are embedded as
functions updated by a left fold, so that later writes overwrite earlier
ones exactly as in the source; optional JSON fields are `Option`; the
truthiness tests of the source (`if (t.ticket_id)`, `s.label || s.code`,
`ticketsJson.date || ""`) are embedded with the empty string as the only
falsy string.
-/

namespace Naksir

/-- Status of a single leg, `LegStatus` of the source: one of the string
literals "PENDING" | "WIN" | "LOSE". -/
inductive LegStatus where
  | PENDING
  | WIN
  | LOSE
deriving DecidableEq, Repr

/-- Status of a whole ticket, `TicketStatus` of the source: one of
"PENDING" | "WIN" | "LOSE" | "PARTIAL". -/
inductive TicketStatus where
  | PENDING
  | WIN
  | LOSE
  | PARTIAL
deriving DecidableEq, Repr

/-- One match prediction of the predictions feed (`Leg` of the source).
Decimal odds are embedded as rationals; the enrichment logic never computes
with them, it only copies them. -/
structure Leg where
  fixture_id : Int
  league_id : Int
  league_name : String
  league_country : String
  home : String
  away : String
  kickoff : String
  market : String
  market_family : String
  pick : String
  odds : Rat
deriving DecidableEq, Repr

/-- A named bundle of legs of the predictions feed (`Ticket` of the source). -/
structure Ticket where
  ticket_id : String
  label : String
  total_odds : Rat
  score : Rat
  legs : List Leg
deriving DecidableEq, Repr

/-- A ticket set of the predictions feed: a code, a label and an ordered
sequence of tickets. -/
structure TicketSet where
  code : String
  label : String
  tickets : List Ticket
deriving DecidableEq, Repr

/-- The predictions feed `tickets.json` (`TicketsFeed` of the source).  The
source reads `ticketsJson.date || ""` and `ticketsJson.sets?.map … || []`,
so both fields may be absent. -/
structure TicketsFeed where
  date : Option String
  sets : Option (List TicketSet)
deriving DecidableEq, Repr

/-- One per-fixture entry of an evaluation record's `legs` sequence. -/
structure EvalLeg where
  fixture_id : Int
  status : LegStatus
deriving DecidableEq, Repr

/-- An evaluation record (`EvaluatedTicket` of the source): keyed by ticket
identifier, optionally carrying an explicit overall status and an optional
sequence of per-fixture leg statuses. -/
structure EvaluatedTicket where
  ticket_id : String
  status : Option TicketStatus
  legs : Option (List EvalLeg)
deriving DecidableEq, Repr

/-- The evaluation feed `evaluation.json` (`EvaluationFeed` of the source). -/
structure EvaluationFeed where
  date : Option String
  tickets : Option (List EvaluatedTicket)
deriving DecidableEq, Repr

/-- An enriched leg: the source spreads the leg (`{ ...leg, status }`), which
is embedded as the original leg paired with its resolved status. -/
structure EnrichedLeg where
  leg : Leg
  status : LegStatus
deriving DecidableEq, Repr

/-- An enriched ticket (`{ ...ticket, status, legs }` of the source): the
ticket's own fields with a resolved status and enriched legs. -/
structure EnrichedTicket where
  ticket_id : String
  label : String
  total_odds : Rat
  score : Rat
  status : TicketStatus
  legs : List EnrichedLeg
deriving DecidableEq, Repr

/-- An enriched ticket set (step 5 of the source's `load`). -/
structure EnrichedSet where
  code : String
  label : String
  tickets : List EnrichedTicket
deriving DecidableEq, Repr

/-- `Map.set` of the evaluation lookup: the map is a function; the write
overwrites the value at the key and leaves every other key unchanged. -/
def mapSet (m : String → Option EvaluatedTicket) (t : EvaluatedTicket) :
    String → Option EvaluatedTicket :=
  fun k => if k = t.ticket_id then some t else m k

/-- Step 3 of the source's `load`: build `evalMap` by iterating the feed's
tickets in order, inserting each one whose `ticket_id` is truthy (nonempty).
A later entry with the same identifier overwrites an earlier one. -/
def buildEvalMap (ts : List EvaluatedTicket) : String → Option EvaluatedTicket :=
  ts.foldl (fun m t => if t.ticket_id ≠ "" then mapSet m t else m) (fun _ => none)

/-- `evalMap` as a function of the (possibly absent) evaluation feed: the
source guards with `if (evalJson?.tickets)`, so an absent feed or an absent
`tickets` field yields the empty map. -/
def evalMapOf (evalJson : Option EvaluationFeed) : String → Option EvaluatedTicket :=
  match evalJson with
  | none => fun _ => none
  | some f =>
    match f.tickets with
    | none => fun _ => none
    | some ts => buildEvalMap ts

/-- `Map.set` of the per-fixture leg status lookup. -/
def legMapSet (m : Int → Option LegStatus) (l : EvalLeg) : Int → Option LegStatus :=
  fun k => if k = l.fixture_id then some l.status else m k

/-- `legStatusMap` of `enrichTicket`: built from the evaluation record's
`legs` when present (guard `if (evaluation.legs)`), empty otherwise. -/
def buildLegStatusMap (ls : Option (List EvalLeg)) : Int → Option LegStatus :=
  match ls with
  | none => fun _ => none
  | some l => l.foldl legMapSet (fun _ => none)

/-- The leg-derived roll-up of lines 106–110 of the source:
`legs.every(WIN) ? WIN : legs.some(LOSE) ? LOSE : PENDING`. -/
def deriveStatus (legs : List EnrichedLeg) : TicketStatus :=
  if legs.all (fun l => l.status == LegStatus.WIN) then TicketStatus.WIN
  else if legs.any (fun l => l.status == LegStatus.LOSE) then TicketStatus.LOSE
  else TicketStatus.PENDING

/-- `enrichTicket` of the source: look the ticket up in `evalMap`; with no
match, every leg and the ticket are PENDING; with a match, each leg takes
the looked-up per-fixture status (default PENDING) and the ticket takes the
record's explicit status when present (`evaluation.status ?? …`), else the
leg-derived roll-up. -/
def enrichTicket (evalMap : String → Option EvaluatedTicket) (ticket : Ticket) :
    EnrichedTicket :=
  match evalMap ticket.ticket_id with
  | none =>
    { ticket_id := ticket.ticket_id, label := ticket.label,
      total_odds := ticket.total_odds, score := ticket.score,
      status := TicketStatus.PENDING,
      legs := ticket.legs.map (fun leg => { leg := leg, status := LegStatus.PENDING }) }
  | some evaluation =>
    let legStatusMap := buildLegStatusMap evaluation.legs
    let legs := ticket.legs.map (fun leg =>
      { leg := leg, status := (legStatusMap leg.fixture_id).getD LegStatus.PENDING })
    let status := evaluation.status.getD (deriveStatus legs)
    { ticket_id := ticket.ticket_id, label := ticket.label,
      total_odds := ticket.total_odds, score := ticket.score,
      status := status, legs := legs }

/-- Step 5 of the source's `load`: `ticketsJson.sets?.map(…) || []`, with
`label: s.label || s.code` (empty label falls back to the code). -/
def enrichSets (ticketsJson : TicketsFeed) (evalJson : Option EvaluationFeed) :
    List EnrichedSet :=
  match ticketsJson.sets with
  | none => []
  | some ss => ss.map (fun s =>
      { code := s.code,
        label := if s.label = "" then s.code else s.label,
        tickets := s.tickets.map (enrichTicket (evalMapOf evalJson)) })

/-- The view-model state written by one completed `load`: the `error`,
`date` and `sets` slots of the hook. -/
structure LoadState where
  error : String
  date : String
  sets : List EnrichedSet
deriving DecidableEq, Repr

/-- Step 2 of the source's `load`: the optional evaluation fetch.  A
non-success status code, a network failure or malformed JSON all leave
`evalJson = null`; only a successful parse yields a feed. -/
def evalFetchResult (evalRes : Except String EvaluationFeed) : Option EvaluationFeed :=
  match evalRes with
  | Except.ok f => some f
  | Except.error _ => none

/-- The source's `load`, given the outcome of the two fetches: a failing
predictions fetch (non-success status, network failure or malformed JSON,
all surfaced as a thrown message) reaches the catch block, which sets
`error` (`e?.message || "Failed to load tickets"`) and clears `sets` and
`date`; a successful predictions fetch enriches and stores the feed with an
empty `error`. -/
def load (ticketsRes : Except String TicketsFeed)
    (evalRes : Except String EvaluationFeed) : LoadState :=
  match ticketsRes with
  | Except.error msg =>
    { error := if msg = "" then "Failed to load tickets" else msg,
      date := "", sets := [] }
  | Except.ok ticketsJson =>
    { error := "",
      date := ticketsJson.date.getD "",
      sets := enrichSets ticketsJson (evalFetchResult evalRes) }

/-! ## Spec-side characterizations

These definitions restate, in the spec's words, what the source is claimed
to compute; the theorems below compare them with the embedded source
functions. -/

/-- The roll-up derivation as the spec words it: ALL legs WIN gives WIN, ANY
leg LOSE gives LOSE, otherwise PENDING. -/
def specDerivedStatus (legs : List EnrichedLeg) : TicketStatus :=
  if ∀ l ∈ legs, l.status = LegStatus.WIN then TicketStatus.WIN
  else if ∃ l ∈ legs, l.status = LegStatus.LOSE then TicketStatus.LOSE
  else TicketStatus.PENDING

/-- The status listed for a fixture identifier in an evaluation record's
`legs` sequence, if any entry for it exists — the last such entry when the
sequence holds duplicates. -/
def specLegLookup (ev : EvaluatedTicket) (fid : Int) : Option LegStatus :=
  ((ev.legs.getD []).reverse.find? (fun l => l.fixture_id == fid)).map EvalLeg.status

/-- The all-PENDING enrichment of a ticket: every leg PENDING and the ticket
PENDING, legs in the ticket's own order. -/
def pendingTicket (t : Ticket) : EnrichedTicket :=
  { ticket_id := t.ticket_id, label := t.label, total_odds := t.total_odds,
    score := t.score, status := TicketStatus.PENDING,
    legs := t.legs.map (fun leg => { leg := leg, status := LegStatus.PENDING }) }

/-- Forget an enriched leg's status, recovering the predictions-feed leg. -/
def stripLeg (l : EnrichedLeg) : Leg := l.leg

/-- Forget an enriched ticket's statuses, recovering the predictions-feed
ticket. -/
def stripTicket (t : EnrichedTicket) : Ticket :=
  { ticket_id := t.ticket_id, label := t.label, total_odds := t.total_odds,
    score := t.score, legs := t.legs.map stripLeg }

/-! ## Concrete feeds for the witnesses (the spec's Scenarios A–D) -/

/-- A concrete leg with the given fixture identifier. -/
def sampleLeg (fid : Int) : Leg :=
  { fixture_id := fid, league_id := 39, league_name := "Premier League",
    league_country := "England", home := "Home FC", away := "Away FC",
    kickoff := "2025-05-01T18:00:00Z", market := "1X2", market_family := "MATCH",
    pick := "1", odds := 2 }

/-- Ticket T1 with two legs on fixtures 100 and 101. -/
def sampleTicket : Ticket :=
  { ticket_id := "T1", label := "Ultimate 2+", total_odds := 4, score := 80,
    legs := [sampleLeg 100, sampleLeg 101] }

/-- One set holding T1. -/
def sampleSet : TicketSet :=
  { code := "GOALS", label := "Goals", tickets := [sampleTicket] }

/-- A predictions feed with the one set. -/
def sampleFeed : TicketsFeed :=
  { date := some "2025-05-01", sets := some [sampleSet] }

/-- Scenario C's evaluation record for T1: explicit PARTIAL, legs WIN and
LOSE. -/
def sampleEvalTicket : EvaluatedTicket :=
  { ticket_id := "T1", status := some TicketStatus.PARTIAL,
    legs := some [{ fixture_id := 100, status := LegStatus.WIN },
                  { fixture_id := 101, status := LegStatus.LOSE }] }

/-- The evaluation feed holding Scenario C's record. -/
def sampleEvalFeed : EvaluationFeed :=
  { date := some "2025-05-01", tickets := some [sampleEvalTicket] }

/-- Scenario B's evaluation record for T1: no explicit status, both legs
WIN. -/
def sampleEvalTicketB : EvaluatedTicket :=
  { ticket_id := "T1", status := none,
    legs := some [{ fixture_id := 100, status := LegStatus.WIN },
                  { fixture_id := 101, status := LegStatus.WIN }] }

/-- The evaluation feed holding Scenario B's record. -/
def sampleEvalFeedB : EvaluationFeed :=
  { date := some "2025-05-01", tickets := some [sampleEvalTicketB] }

/-! ## Lookup-map lemmas -/

/-- A left fold of `legMapSet` reads back as the last matching entry: the
value at `k` is the status of the last entry for fixture `k`, else the
initial map's value. -/
theorem foldl_legMapSet_apply (ls : List EvalLeg) (m : Int → Option LegStatus) (k : Int) :
    ls.foldl legMapSet m k =
      (ls.reverse.find? (fun l => l.fixture_id == k)).elim (m k) (fun l => some l.status) := by
  induction ls generalizing m with
  | nil => rfl
  | cons x xs ih =>
    rw [List.foldl_cons, ih, List.reverse_cons, List.find?_append]
    cases hxs : xs.reverse.find? (fun l => l.fixture_id == k) with
    | some l => simp
    | none =>
      by_cases hx : x.fixture_id = k
      · simp [legMapSet, List.find?, hx]
      · have hb : (x.fixture_id == k) = false := by simp [hx]
        have hx' : ¬(k = x.fixture_id) := fun h => hx h.symm
        simp [legMapSet, List.find?, hb, hx']

/-- The per-fixture lookup map of `enrichTicket` agrees with the spec-side
last-entry lookup. -/
theorem buildLegStatusMap_eq_spec (ev : EvaluatedTicket) (fid : Int) :
    buildLegStatusMap ev.legs fid = specLegLookup ev fid := by
  cases hl : ev.legs with
  | none => simp [buildLegStatusMap, specLegLookup, hl]
  | some ls =>
    rw [buildLegStatusMap, foldl_legMapSet_apply]
    simp only [specLegLookup, hl, Option.getD_some]
    cases ls.reverse.find? (fun l => l.fixture_id == fid) <;> simp

/-- A left fold of the guarded `evalMap` insertion reads back, at any
nonempty key, as the last entry carrying that ticket identifier. -/
theorem foldl_evalMap_apply (ts : List EvaluatedTicket)
    (m : String → Option EvaluatedTicket) (k : String) (hk : k ≠ "") :
    (ts.foldl (fun m t => if t.ticket_id ≠ "" then mapSet m t else m) m) k =
      (ts.reverse.find? (fun t => t.ticket_id == k)).elim (m k) some := by
  induction ts generalizing m with
  | nil => rfl
  | cons x xs ih =>
    rw [List.foldl_cons, ih, List.reverse_cons, List.find?_append]
    cases hxs : xs.reverse.find? (fun t => t.ticket_id == k) with
    | some t => simp
    | none =>
      by_cases hx : x.ticket_id = k
      · have hne : x.ticket_id ≠ "" := by rw [hx]; exact hk
        simp [mapSet, List.find?, hx, hne, hk]
      · have hb : (x.ticket_id == k) = false := by simp [hx]
        have hx' : ¬(k = x.ticket_id) := fun h => hx h.symm
        by_cases hne : x.ticket_id = ""
        · have hb0 : ("" == k) = false := by simp [Ne.symm hk]
          simp [List.find?, hne, hb0]
        · simp [mapSet, List.find?, hb, hx', hne]

/-- `evalMapOf` of a present feed with a present `tickets` field, at a
nonempty key, is the last entry carrying that identifier. -/
theorem evalMapOf_eq_find (f : EvaluationFeed) (ts : List EvaluatedTicket)
    (hts : f.tickets = some ts) (k : String) (hk : k ≠ "") :
    evalMapOf (some f) k = ts.reverse.find? (fun t => t.ticket_id == k) := by
  simp only [evalMapOf, hts]
  rw [buildEvalMap, foldl_evalMap_apply _ _ _ hk]
  cases ts.reverse.find? (fun t => t.ticket_id == k) <;> simp

/-- `find?` returns the unique member satisfying the predicate. -/
theorem find_eq_some_of_mem_unique {α : Type} (p : α → Bool) (ls : List α) (a : α)
    (ha : a ∈ ls) (hp : p a = true) (huniq : ∀ x ∈ ls, p x = true → x = a) :
    ls.find? p = some a := by
  induction ls with
  | nil => cases ha
  | cons x xs ih =>
    by_cases hx : p x = true
    · have hxa : x = a := huniq x (List.mem_cons_self x xs) hx
      subst hxa
      simp [List.find?, hx]
    · have hb : p x = false := Bool.eq_false_iff.mpr hx
      have ha' : a ∈ xs := by
        rcases List.mem_cons.mp ha with rfl | h
        · exact absurd hp hx
        · exact h
      have huniq' : ∀ x ∈ xs, p x = true → x = a := fun y hy hpy =>
        huniq y (List.mem_cons_of_mem x hy) hpy
      simp [List.find?, hb, ih ha' huniq']

/-- In a list whose keys are pairwise distinct, two members with the same
key are the same member. -/
theorem eq_of_pairwise_key {α β : Type} (key : α → β) (ls : List α)
    (h : ls.Pairwise (fun a b => key a ≠ key b)) (x y : α)
    (hx : x ∈ ls) (hy : y ∈ ls) (hxy : key x = key y) : x = y := by
  induction ls with
  | nil => cases hx
  | cons z zs ih =>
    rcases List.pairwise_cons.mp h with ⟨hz, hzs⟩
    rcases List.mem_cons.mp hx with rfl | hx'
    · rcases List.mem_cons.mp hy with rfl | hy'
      · rfl
      · exact absurd hxy (hz y hy')
    · rcases List.mem_cons.mp hy with rfl | hy'
      · exact absurd hxy.symm (hz x hx')
      · exact ih hzs hx' hy'

/-- The source's boolean roll-up (`every` / `some`) computes exactly the
spec-side derivation. -/
theorem deriveStatus_eq_spec (legs : List EnrichedLeg) :
    deriveStatus legs = specDerivedStatus legs := by
  simp only [deriveStatus, specDerivedStatus, List.all_eq_true, List.any_eq_true,
    beq_iff_eq]

/-- The spec-side derivation never yields PARTIAL. -/
theorem specDerivedStatus_ne_PARTIAL (legs : List EnrichedLeg) :
    specDerivedStatus legs ≠ TicketStatus.PARTIAL := by
  rw [specDerivedStatus]
  split
  · exact fun h => TicketStatus.noConfusion h
  split
  · exact fun h => TicketStatus.noConfusion h
  · exact fun h => TicketStatus.noConfusion h

/-- Enriching a matching ticket: the unfolded form of `enrichTicket`. -/
theorem enrichTicket_of_some (m : String → Option EvaluatedTicket) (t : Ticket)
    (ev : EvaluatedTicket) (h : m t.ticket_id = some ev) :
    enrichTicket m t =
      { ticket_id := t.ticket_id, label := t.label,
        total_odds := t.total_odds, score := t.score,
        status := ev.status.getD (deriveStatus (t.legs.map (fun leg =>
          { leg := leg,
            status := (buildLegStatusMap ev.legs leg.fixture_id).getD LegStatus.PENDING }))),
        legs := t.legs.map (fun leg =>
          { leg := leg,
            status := (buildLegStatusMap ev.legs leg.fixture_id).getD LegStatus.PENDING }) } := by
  rw [enrichTicket, h]

/-- Enriching a ticket with no matching record gives the all-PENDING form. -/
theorem enrichTicket_of_none (m : String → Option EvaluatedTicket) (t : Ticket)
    (h : m t.ticket_id = none) :
    enrichTicket m t = pendingTicket t := by
  rw [enrichTicket, h, pendingTicket]

/-- Stripping the statuses of an enriched ticket recovers the original
ticket: enrichment only decorates. -/
theorem stripTicket_enrichTicket (m : String → Option EvaluatedTicket) (t : Ticket) :
    stripTicket (enrichTicket m t) = t := by
  cases h : m t.ticket_id with
  | none =>
    rw [enrichTicket_of_none m t h]
    simp only [stripTicket, pendingTicket, List.map_map]
    have hcomp : (stripLeg ∘ fun leg =>
        ({ leg := leg, status := LegStatus.PENDING } : EnrichedLeg)) = id := rfl
    rw [hcomp, List.map_id]
  | some ev =>
    rw [enrichTicket_of_some m t ev h]
    simp only [stripTicket, List.map_map]
    have hcomp : (stripLeg ∘ fun leg =>
        ({ leg := leg,
           status := (buildLegStatusMap ev.legs leg.fixture_id).getD LegStatus.PENDING } :
          EnrichedLeg)) = id := rfl
    rw [hcomp, List.map_id]

/-- `enrichTicket` consults the lookup only at the ticket's own identifier. -/
theorem enrichTicket_congr (m₁ m₂ : String → Option EvaluatedTicket) (t : Ticket)
    (h : m₁ t.ticket_id = m₂ t.ticket_id) :
    enrichTicket m₁ t = enrichTicket m₂ t := by
  rw [enrichTicket, enrichTicket, h]

/-- A ticket with no legs, for the vacuous-derivation witness. -/
def sampleTicketE : Ticket :=
  { ticket_id := "T2", label := "Empty", total_odds := 1, score := 0, legs := [] }

/-- An evaluation record for T2 with no explicit status. -/
def sampleEvalTicketE : EvaluatedTicket :=
  { ticket_id := "T2", status := none, legs := some [] }

/-- The evaluation feed holding only T2's record. -/
def sampleEvalFeedE : EvaluationFeed :=
  { date := none, tickets := some [sampleEvalTicketE] }

/-! ## The claims -/

/-- C1: for a ticket with a matching evaluation record, the enriched ticket
status uses the record's explicit overall status verbatim when present
(PARTIAL included, even when the legs would derive differently); otherwise
it is the derivation over the resolved legs — all WIN ⇒ WIN, any LOSE ⇒
LOSE, otherwise PENDING — and that derivation never yields PARTIAL. -/
theorem ticket_status_precedence (m : Option EvaluationFeed) (t : Ticket)
    (ev : EvaluatedTicket) (h : evalMapOf m t.ticket_id = some ev) :
    (∀ s, ev.status = some s → (enrichTicket (evalMapOf m) t).status = s) ∧
    (ev.status = none →
      (enrichTicket (evalMapOf m) t).status
        = specDerivedStatus (enrichTicket (evalMapOf m) t).legs ∧
      specDerivedStatus (enrichTicket (evalMapOf m) t).legs ≠ TicketStatus.PARTIAL) := by
  rw [enrichTicket_of_some (evalMapOf m) t ev h]
  refine ⟨?_, ?_⟩
  · intro s hs
    dsimp only
    rw [hs, Option.getD_some]
  · intro hs
    refine ⟨?_, specDerivedStatus_ne_PARTIAL _⟩
    dsimp only
    rw [hs, Option.getD_none, deriveStatus_eq_spec]

/-- Witness for C1 at the spec's Scenario C: the explicit PARTIAL overrides
the leg-derived LOSE. -/
theorem ticket_status_precedence_witness :
    (enrichTicket (evalMapOf (some sampleEvalFeed)) sampleTicket).status
      = TicketStatus.PARTIAL :=
  (ticket_status_precedence (some sampleEvalFeed) sampleTicket sampleEvalTicket
      (by decide)).1 TicketStatus.PARTIAL (by decide)

/-- C2: a ticket with no matching evaluation record is enriched to the
all-PENDING form without consulting the derivation, and with the evaluation
feed absent the whole enrichment is the order-preserving map of that
all-PENDING form over the predictions feed's sets and tickets. -/
theorem no_record_all_pending (m : Option EvaluationFeed) (feed : TicketsFeed)
    (t : Ticket) (h : evalMapOf m t.ticket_id = none) :
    enrichTicket (evalMapOf m) t = pendingTicket t ∧
    enrichSets feed none =
      (feed.sets.getD []).map (fun s =>
        { code := s.code, label := if s.label = "" then s.code else s.label,
          tickets := s.tickets.map pendingTicket }) := by
  refine ⟨enrichTicket_of_none _ _ h, ?_⟩
  cases hs : feed.sets with
  | none => simp [enrichSets, hs]
  | some ss =>
    simp only [enrichSets, hs, Option.getD_some]
    apply List.map_congr_left
    intro s _
    have ht : s.tickets.map (enrichTicket (evalMapOf none)) = s.tickets.map pendingTicket :=
      List.map_congr_left fun u _ => enrichTicket_of_none _ _ rfl
    rw [ht]

/-- Witness for C2 at Scenario A: T1 with the evaluation feed absent. -/
theorem no_record_all_pending_witness :
    enrichTicket (evalMapOf none) sampleTicket = pendingTicket sampleTicket :=
  (no_record_all_pending none sampleFeed sampleTicket (by decide)).1

/-- C3: each enriched leg of a matched ticket carries the status listed for
its fixture identifier in the record's legs sequence (the last entry when
the sequence repeats an identifier) and PENDING when no entry exists; with
pairwise-distinct identifiers the lookup returns each listed entry's own
status, and an identifier listed by no entry resolves to none. -/
theorem leg_status_lookup (m : Option EvaluationFeed) (t : Ticket)
    (ev : EvaluatedTicket) (h : evalMapOf m t.ticket_id = some ev) :
    (enrichTicket (evalMapOf m) t).legs =
      t.legs.map (fun leg =>
        { leg := leg,
          status := (specLegLookup ev leg.fixture_id).getD LegStatus.PENDING }) ∧
    ((ev.legs.getD []).Pairwise (fun a b => a.fixture_id ≠ b.fixture_id) →
      ∀ l ∈ ev.legs.getD [], specLegLookup ev l.fixture_id = some l.status) ∧
    (∀ fid, (∀ l ∈ ev.legs.getD [], l.fixture_id ≠ fid) → specLegLookup ev fid = none) := by
  refine ⟨?_, ?_, ?_⟩
  · rw [enrichTicket_of_some (evalMapOf m) t ev h]
    dsimp only
    exact List.map_congr_left fun leg _ => by rw [buildLegStatusMap_eq_spec]
  · intro hpw l hl
    rw [specLegLookup,
      find_eq_some_of_mem_unique (fun x => x.fixture_id == l.fixture_id)
        (ev.legs.getD []).reverse l (List.mem_reverse.mpr hl) (by simp)
        (fun x hx hpx =>
          eq_of_pairwise_key EvalLeg.fixture_id (ev.legs.getD []) hpw x l
            (List.mem_reverse.mp hx) hl (by simpa using hpx))]
    rfl
  · intro fid hfid
    rw [specLegLookup, List.find?_eq_none.mpr ?_]
    · rfl
    · intro x hx
      simpa using hfid x (List.mem_reverse.mp hx)

/-- Witness for C3 at Scenario C: fixture 101 resolves to LOSE, and both
conjuncts hold on the concrete record. -/
theorem leg_status_lookup_witness :
    (enrichTicket (evalMapOf (some sampleEvalFeed)) sampleTicket).legs =
      sampleTicket.legs.map (fun leg =>
        { leg := leg,
          status := (specLegLookup sampleEvalTicket leg.fixture_id).getD LegStatus.PENDING }) :=
  (leg_status_lookup (some sampleEvalFeed) sampleTicket sampleEvalTicket (by decide)).1

/-- C9: a ticket whose legs sequence is empty, matched by a record with no
explicit status, derives WIN vacuously. -/
theorem empty_legs_vacuous_win (m : Option EvaluationFeed) (t : Ticket)
    (ev : EvaluatedTicket) (h : evalMapOf m t.ticket_id = some ev)
    (hlegs : t.legs = []) (hst : ev.status = none) :
    (enrichTicket (evalMapOf m) t).status = TicketStatus.WIN := by
  rw [enrichTicket_of_some (evalMapOf m) t ev h]
  dsimp only
  rw [hlegs, hst]
  rfl

/-- Witness for C9: the empty-legged ticket T2 against its statusless
record. -/
theorem empty_legs_vacuous_win_witness :
    (enrichTicket (evalMapOf (some sampleEvalFeedE)) sampleTicketE).status
      = TicketStatus.WIN :=
  empty_legs_vacuous_win (some sampleEvalFeedE) sampleTicketE sampleEvalTicketE
    (by decide) (by decide) (by decide)

/-- Appending an evaluation entry changes the lookup only at that entry's
identifier. -/
theorem evalMapOf_append_other (f : EvaluationFeed) (ts : List EvaluatedTicket)
    (hts : f.tickets = some ts) (extra : EvaluatedTicket) (k : String)
    (hk : k ≠ extra.ticket_id) :
    evalMapOf (some { date := f.date, tickets := some (ts ++ [extra]) }) k
      = evalMapOf (some f) k := by
  simp only [evalMapOf, hts, buildEvalMap, List.foldl_append, List.foldl_cons,
    List.foldl_nil]
  by_cases he : extra.ticket_id = ""
  · simp [he]
  · simp [he, mapSet, hk]

/-- An evaluation record not matching any predictions ticket, for the frame
witness. -/
def sampleExtraEval : EvaluatedTicket :=
  { ticket_id := "ZZ", status := some TicketStatus.WIN, legs := none }

/-- C5: enrichment neither fabricates nor drops any set, ticket or leg —
stripping the statuses recovers the predictions feed's sets, tickets and
legs in their original order — and appending an evaluation entry whose
identifier occurs in no predictions ticket leaves the output unchanged. -/
theorem enrichment_frame (feed : TicketsFeed) (e : Option EvaluationFeed) :
    ((enrichSets feed e).map (fun s => (s.code, s.tickets.map stripTicket))
      = (feed.sets.getD []).map (fun s => (s.code, s.tickets))) ∧
    (∀ f ts extra, e = some f → f.tickets = some ts →
      (∀ s ∈ feed.sets.getD [], ∀ t ∈ s.tickets, t.ticket_id ≠ extra.ticket_id) →
      enrichSets feed (some { date := f.date, tickets := some (ts ++ [extra]) })
        = enrichSets feed e) := by
  constructor
  · cases hs : feed.sets with
    | none => simp [enrichSets, hs]
    | some ss =>
      simp only [enrichSets, hs, Option.getD_some, List.map_map]
      apply List.map_congr_left
      intro s _
      dsimp only [Function.comp]
      refine congrArg (Prod.mk s.code) ?_
      rw [List.map_map]
      have hmap : s.tickets.map (stripTicket ∘ enrichTicket (evalMapOf e))
          = s.tickets.map id :=
        List.map_congr_left fun u _ => stripTicket_enrichTicket _ u
      rw [hmap, List.map_id]
  · rintro f ts extra rfl hts hdisj
    cases hs : feed.sets with
    | none => simp [enrichSets, hs]
    | some ss =>
      simp only [enrichSets, hs]
      apply List.map_congr_left
      intro s hsmem
      have htick : s.tickets.map (enrichTicket (evalMapOf
              (some { date := f.date, tickets := some (ts ++ [extra]) })))
          = s.tickets.map (enrichTicket (evalMapOf (some f))) :=
        List.map_congr_left fun u hu =>
          enrichTicket_congr _ _ u
            (evalMapOf_append_other f ts hts extra u.ticket_id
              (hdisj s (by simpa [hs] using hsmem) u hu))
      rw [htick]

/-- Witness for C5 (Scenario D): an entry for the unknown identifier ZZ is
ignored. -/
theorem enrichment_frame_witness :
    enrichSets sampleFeed
        (some { date := sampleEvalFeed.date,
                tickets := some ([sampleEvalTicket] ++ [sampleExtraEval]) })
      = enrichSets sampleFeed (some sampleEvalFeed) :=
  (enrichment_frame sampleFeed (some sampleEvalFeed)).2 sampleEvalFeed
    [sampleEvalTicket] sampleExtraEval rfl (by decide) (by decide)

/-- The earlier of two duplicated evaluation entries for T1. -/
def dupEvalA : EvaluatedTicket :=
  { ticket_id := "T1", status := some TicketStatus.WIN, legs := none }

/-- The later of two duplicated evaluation entries for T1. -/
def dupEvalB : EvaluatedTicket :=
  { ticket_id := "T1", status := some TicketStatus.LOSE, legs := none }

/-- An evaluation feed listing T1 twice. -/
def dupEvalFeed : EvaluationFeed :=
  { date := none, tickets := some [dupEvalA, dupEvalB] }

/-- C6: duplicated ticket identifiers do not break the lookup build — the
lookup value is the last entry in sequence order carrying the identifier,
so a later duplicate overwrites an earlier one. -/
theorem duplicate_eval_last_wins (f : EvaluationFeed) (ts : List EvaluatedTicket)
    (hts : f.tickets = some ts) (k : String) (hk : k ≠ "") :
    evalMapOf (some f) k = ts.reverse.find? (fun t => t.ticket_id == k) ∧
    (∀ pre t₁ mid t₂ post, ts = pre ++ t₁ :: (mid ++ t₂ :: post) →
      t₁.ticket_id = k → t₂.ticket_id = k → (∀ u ∈ post, u.ticket_id ≠ k) →
      evalMapOf (some f) k = some t₂) := by
  refine ⟨evalMapOf_eq_find f ts hts k hk, ?_⟩
  rintro pre t₁ mid t₂ post hsplit h1 h2 hpost
  rw [evalMapOf_eq_find f ts hts k hk, hsplit]
  have hn : post.reverse.find? (fun u => u.ticket_id == k) = none :=
    List.find?_eq_none.mpr fun u hu => by
      simpa using hpost u (List.mem_reverse.mp hu)
  simp [List.reverse_append, List.find?_append, List.find?_cons, hn, h2]

/-- Witness for C6: T1 listed twice resolves to the later entry. -/
theorem duplicate_eval_last_wins_witness :
    evalMapOf (some dupEvalFeed) "T1" = some dupEvalB :=
  (duplicate_eval_last_wins dupEvalFeed [dupEvalA, dupEvalB] rfl "T1"
      (by decide)).2
    [] dupEvalA [] dupEvalB [] rfl rfl rfl (by decide)

/-- C7: enrichment is deterministic — identical input feeds give
structurally identical output.  Purity and non-mutation hold by
construction: the embedded merge is a total function of its two immutable
inputs. -/
theorem enrichment_deterministic (p₁ p₂ : TicketsFeed) (e₁ e₂ : Option EvaluationFeed)
    (hp : p₁ = p₂) (he : e₁ = e₂) : enrichSets p₁ e₁ = enrichSets p₂ e₂ := by
  rw [hp, he]

/-- Witness for C7 at the sample feeds. -/
theorem enrichment_deterministic_witness :
    enrichSets sampleFeed (some sampleEvalFeed)
      = enrichSets sampleFeed (some sampleEvalFeed) :=
  enrichment_deterministic sampleFeed sampleFeed
    (some sampleEvalFeed) (some sampleEvalFeed) rfl rfl

/-- C4: the load succeeds (empty error) exactly when the predictions fetch
succeeds, and a failing evaluation fetch is treated as the evaluation feed
being absent — enrichment proceeds with default-pending statuses and the
failure never escalates. -/
theorem load_failure_modes (tr : Except String TicketsFeed)
    (er : Except String EvaluationFeed) :
    ((load tr er).error = "" ↔ ∃ feed, tr = Except.ok feed) ∧
    (∀ feed msg, tr = Except.ok feed →
      load tr (Except.error msg)
        = { error := "", date := feed.date.getD "", sets := enrichSets feed none }) := by
  constructor
  · cases tr with
    | error msg =>
      constructor
      · intro hcontra
        have hc : (if msg = "" then "Failed to load tickets" else msg) = "" := hcontra
        by_cases hm : msg = ""
        · rw [if_pos hm] at hc
          exact absurd hc (by decide)
        · rw [if_neg hm] at hc
          exact absurd hc hm
      · rintro ⟨feed, hfeed⟩
        cases hfeed
    | ok feed => exact ⟨fun _ => ⟨feed, rfl⟩, fun _ => rfl⟩
  · rintro feed msg rfl
    rfl

/-- Witness for C4: a failing evaluation fetch next to a successful
predictions fetch loads as a success against the absent evaluation. -/
theorem load_failure_modes_witness :
    load (Except.ok sampleFeed) (Except.error "eval HTTP 404")
      = { error := "", date := sampleFeed.date.getD "",
          sets := enrichSets sampleFeed none } :=
  (load_failure_modes (Except.ok sampleFeed) (Except.error "eval HTTP 404")).2
    sampleFeed "eval HTTP 404" rfl

/-- C8: a failing predictions fetch stores the thrown message (or a default
when it is empty) as a nonempty error and clears both the sets and the
date. -/
theorem load_failure_clears (msg : String) (er : Except String EvaluationFeed) :
    (load (Except.error msg) er).error
        = (if msg = "" then "Failed to load tickets" else msg) ∧
    (load (Except.error msg) er).error ≠ "" ∧
    (load (Except.error msg) er).sets = [] ∧
    (load (Except.error msg) er).date = "" := by
  refine ⟨rfl, ?_, rfl, rfl⟩
  show (if msg = "" then "Failed to load tickets" else msg) ≠ ""
  by_cases hm : msg = ""
  · rw [if_pos hm]; decide
  · rw [if_neg hm]; exact hm

/-- A predictions feed whose sets field is absent. -/
def noSetsFeed : TicketsFeed := { date := some "2025-05-01", sets := none }

/-- C10: a predictions feed that parses but carries no sets field loads as
a success with an empty sets sequence and the defaulted date. -/
theorem missing_sets_success (feed : TicketsFeed) (er : Except String EvaluationFeed)
    (h : feed.sets = none) :
    load (Except.ok feed) er
      = { error := "", date := feed.date.getD "", sets := [] } := by
  have hsets : enrichSets feed (evalFetchResult er) = [] := by
    simp [enrichSets, h]
  simp only [load, hsets]

/-- Witness for C10: the set-less feed loads successfully with no sets. -/
theorem missing_sets_success_witness :
    load (Except.ok noSetsFeed) (Except.error "eval down")
      = { error := "", date := noSetsFeed.date.getD "", sets := [] } :=
  missing_sets_success noSetsFeed (Except.error "eval down") (by decide)

example : evalMapOf (some sampleEvalFeed) "T1" = some sampleEvalTicket := by decide
example : (enrichTicket (evalMapOf (some sampleEvalFeed)) sampleTicket).status
    = TicketStatus.PARTIAL := by decide
example : (enrichTicket (evalMapOf (some sampleEvalFeedB)) sampleTicket).status
    = TicketStatus.WIN := by decide
example : (enrichTicket (evalMapOf none) sampleTicket).status
    = TicketStatus.PENDING := by decide
example : enrichTicket (evalMapOf none) sampleTicket = pendingTicket sampleTicket := by
  decide
example : specLegLookup sampleEvalTicket 101 = some LegStatus.LOSE := by decide
example : specLegLookup sampleEvalTicket 102 = none := by decide
example : specDerivedStatus (enrichTicket (evalMapOf (some sampleEvalFeedB)) sampleTicket).legs
    = TicketStatus.WIN := by decide

end Naksir
